import Mathlib

/-!
Verification of the evaluation engine of the rider-welfare grade service
(`main.py`): anchor-day period arithmetic, identity resolution with admin
overrides, tier thresholds, contract-status exclusion, and the cached
external fetch layer.

Calendar model: dates are proleptic Gregorian triples (year, month, day)
with unbounded integer years, matching the semantics of Python's
`datetime.date` and `dateutil.relativedelta` on the library's supported
range.  Comparisons are lexicographic, exactly as Python compares dates.
-/

/-- Gregorian leap-year test, as in Python's `calendar.isleap`. -/
def isLeap (y : Int) : Bool :=
  y % 4 = 0 && (y % 100 != 0 || y % 400 = 0)

/-- Number of days in a month of a given year.  This is the value Python's
`date(y, m, 1) + relativedelta(months=1) - timedelta(days=1)` computes as
its `.day` (proved below as `last_day_of_month_eq`). -/
def daysInMonth (y : Int) (m : Nat) : Nat :=
  match m with
  | 1 => 31
  | 2 => if isLeap y then 29 else 28
  | 3 => 31
  | 4 => 30
  | 5 => 31
  | 6 => 30
  | 7 => 31
  | 8 => 31
  | 9 => 30
  | 10 => 31
  | 11 => 30
  | 12 => 31
  | _ => 31

/-- A calendar date, modelling Python's `datetime.date`. -/
structure Date where
  year : Int
  month : Nat
  day : Nat
deriving DecidableEq, Repr

/-- The triple denotes an actual calendar day. -/
def Date.Valid (d : Date) : Prop :=
  1 ≤ d.month ∧ d.month ≤ 12 ∧ 1 ≤ d.day ∧ d.day ≤ daysInMonth d.year d.month

instance (d : Date) : Decidable d.Valid := by
  unfold Date.Valid; infer_instance

/-- `a <= b` on Python dates: lexicographic on (year, month, day). -/
def date_le (a b : Date) : Prop :=
  a.year < b.year ∨ (a.year = b.year ∧
    (a.month < b.month ∨ (a.month = b.month ∧ a.day ≤ b.day)))

/-- `a < b` on Python dates: lexicographic on (year, month, day). -/
def date_lt (a b : Date) : Prop :=
  a.year < b.year ∨ (a.year = b.year ∧
    (a.month < b.month ∨ (a.month = b.month ∧ a.day < b.day)))

instance (a b : Date) : Decidable (date_le a b) := by
  unfold date_le; infer_instance

instance (a b : Date) : Decidable (date_lt a b) := by
  unfold date_lt; infer_instance

/-- Python's binary `min` on dates (first argument wins ties). -/
def date_min (a b : Date) : Date :=
  if date_le a b then a else b

/-- `d - timedelta(days=1)`: the previous calendar day. -/
def date_pred (d : Date) : Date :=
  if 2 ≤ d.day then ⟨d.year, d.month, d.day - 1⟩
  else if 2 ≤ d.month then ⟨d.year, d.month - 1, daysInMonth d.year (d.month - 1)⟩
  else ⟨d.year - 1, 12, 31⟩

/-- `d + relativedelta(months=n)` (dateutil): shift the month index by `n`
with floor-division year carry, then clamp the day to the length of the
resulting month. -/
def relativedelta_months (d : Date) (n : Int) : Date :=
  let total : Int := d.year * 12 + (d.month : Int) - 1 + n
  let y := total / 12
  let m := (total % 12).toNat + 1
  ⟨y, m, min d.day (daysInMonth y m)⟩

/-- The previous (year, month) pair of a calendar month. -/
def prev_ym (y : Int) (m : Nat) : Int × Nat :=
  if m = 1 then (y - 1, 12) else (y, m - 1)

/-- The next (year, month) pair of a calendar month. -/
def next_ym (y : Int) (m : Nat) : Int × Nat :=
  if m = 12 then (y + 1, 1) else (y, m + 1)

/-- `date(year, month, 1) + relativedelta(months=1)` from `clamp_day`. -/
def first_of_next_month (y : Int) (m : Nat) : Date :=
  relativedelta_months ⟨y, m, 1⟩ 1

/-- `(first + relativedelta(months=1) - timedelta(days=1)).day` from
`clamp_day` in the source. -/
def last_day_of_month (y : Int) (m : Nat) : Nat :=
  (date_pred (first_of_next_month y m)).day

/-- `clamp_day(year, month, target_day)` from the source: the target day in
the given month, clamped to the month's last day. -/
def clamp_day (y : Int) (m : Nat) (target_day : Nat) : Date :=
  ⟨y, m, min target_day (last_day_of_month y m)⟩

-- Basic facts about the calendar model.

lemma daysInMonth_pos (y : Int) (m : Nat) : 1 ≤ daysInMonth y m := by
  unfold daysInMonth
  split <;> first | omega | (split <;> omega)

lemma daysInMonth_le_31 (y : Int) (m : Nat) : daysInMonth y m ≤ 31 := by
  unfold daysInMonth
  split <;> first | omega | (split <;> omega)

lemma daysInMonth_twelve (y : Int) : daysInMonth y 12 = 31 := rfl

lemma date_le_refl (a : Date) : date_le a a := by
  unfold date_le; omega

lemma date_le_trans {a b c : Date} (h1 : date_le a b) (h2 : date_le b c) :
    date_le a c := by
  unfold date_le at *; omega

lemma date_lt_iff_not_le {a b : Date} : date_lt a b ↔ ¬ date_le b a := by
  unfold date_lt date_le; omega

lemma date_lt_of_le_of_lt {a b c : Date} (h1 : date_le a b) (h2 : date_lt b c) :
    date_lt a c := by
  unfold date_le date_lt at *; omega

lemma date_le_of_lt {a b : Date} (h : date_lt a b) : date_le a b := by
  unfold date_le date_lt at *; omega

lemma date_le_total (a b : Date) : date_le a b ∨ date_le b a := by
  unfold date_le; omega

/-- `relativedelta(months=-1)` moves to the previous calendar month and
clamps the day. -/
lemma relativedelta_sub_one (d : Date) (h1 : 1 ≤ d.month) (h12 : d.month ≤ 12) :
    relativedelta_months d (-1) =
      ⟨(prev_ym d.year d.month).1, (prev_ym d.year d.month).2,
        min d.day (daysInMonth (prev_ym d.year d.month).1 (prev_ym d.year d.month).2)⟩ := by
  rcases d with ⟨y, m, dy⟩
  simp only at h1 h12 ⊢
  unfold relativedelta_months prev_ym
  simp only
  by_cases hm : m = 1
  · subst hm
    have hdiv : (y * 12 + ((1 : Nat) : Int) - 1 + -1) / 12 = y - 1 := by omega
    have hmod : ((y * 12 + ((1 : Nat) : Int) - 1 + -1) % 12).toNat + 1 = 12 := by omega
    rw [hdiv, hmod, if_pos rfl]
  · have hdiv : (y * 12 + (m : Int) - 1 + -1) / 12 = y := by omega
    have hmod : ((y * 12 + (m : Int) - 1 + -1) % 12).toNat + 1 = m - 1 := by omega
    rw [hdiv, hmod, if_neg hm]

/-- `relativedelta(months=1)` moves to the next calendar month and clamps
the day. -/
lemma relativedelta_add_one (d : Date) (h1 : 1 ≤ d.month) (h12 : d.month ≤ 12) :
    relativedelta_months d 1 =
      ⟨(next_ym d.year d.month).1, (next_ym d.year d.month).2,
        min d.day (daysInMonth (next_ym d.year d.month).1 (next_ym d.year d.month).2)⟩ := by
  rcases d with ⟨y, m, dy⟩
  simp only at h1 h12 ⊢
  unfold relativedelta_months next_ym
  simp only
  by_cases hm : m = 12
  · subst hm
    have hdiv : (y * 12 + ((12 : Nat) : Int) - 1 + 1) / 12 = y + 1 := by omega
    have hmod : ((y * 12 + ((12 : Nat) : Int) - 1 + 1) % 12).toNat + 1 = 1 := by omega
    rw [hdiv, hmod, if_pos rfl]
  · have hdiv : (y * 12 + (m : Int) - 1 + 1) / 12 = y := by omega
    have hmod : ((y * 12 + (m : Int) - 1 + 1) % 12).toNat + 1 = m + 1 := by omega
    rw [hdiv, hmod, if_neg hm]

/-- The roundabout computation of the last day of a month in `clamp_day`
agrees with the direct month-length table. -/
lemma last_day_of_month_eq (y : Int) (m : Nat) (h1 : 1 ≤ m) (h12 : m ≤ 12) :
    last_day_of_month y m = daysInMonth y m := by
  unfold last_day_of_month first_of_next_month
  rw [relativedelta_add_one ⟨y, m, 1⟩ h1 h12]
  unfold next_ym date_pred
  by_cases hm : m = 12
  · subst hm
    rw [if_pos rfl]
    have hmin : min 1 (daysInMonth (y + 1) 1) = 1 := by
      have := daysInMonth_pos (y + 1) 1; omega
    simp only [hmin]
    exact (daysInMonth_twelve y).symm
  · rw [if_neg hm]
    have hmin : min 1 (daysInMonth y (m + 1)) = 1 := by
      have := daysInMonth_pos y (m + 1); omega
    simp only [hmin]
    have hnot2 : ¬ (2 : Nat) ≤ 1 := by omega
    rw [if_neg hnot2]
    have hm2 : 2 ≤ m + 1 := by omega
    rw [if_pos hm2]
    simp

lemma clamp_day_eq (y : Int) (m : Nat) (t : Nat) (h1 : 1 ≤ m) (h12 : m ≤ 12) :
    clamp_day y m t = ⟨y, m, min t (daysInMonth y m)⟩ := by
  unfold clamp_day
  rw [last_day_of_month_eq y m h1 h12]

lemma clamp_day_valid (y : Int) (m : Nat) (t : Nat) (h1 : 1 ≤ m) (h12 : m ≤ 12)
    (ht : 1 ≤ t) : (clamp_day y m t).Valid := by
  rw [clamp_day_eq y m t h1 h12]
  have := daysInMonth_pos y m
  exact ⟨h1, h12, by simp; omega, by simp⟩

lemma date_pred_lt (d : Date) (hd : d.Valid) : date_lt (date_pred d) d := by
  obtain ⟨h1, h2, h3, h4⟩ := hd
  unfold date_pred date_lt
  split
  · dsimp only; omega
  · split
    · dsimp only; omega
    · dsimp only; omega

/-- For valid dates, `x < d` exactly when `x ≤ d - 1 day`: `date_pred` is
the immediate predecessor. -/
lemma date_lt_iff_le_pred (x d : Date) (hx : x.Valid) (hd : d.Valid) :
    date_lt x d ↔ date_le x (date_pred d) := by
  obtain ⟨hx1, hx2, hx3, hx4⟩ := hx
  obtain ⟨hd1, hd2, hd3, hd4⟩ := hd
  unfold date_pred
  by_cases h2 : 2 ≤ d.day
  · rw [if_pos h2]
    unfold date_lt date_le
    simp only
    omega
  · rw [if_neg h2]
    by_cases hm : 2 ≤ d.month
    · rw [if_pos hm]
      unfold date_lt date_le
      simp only
      constructor
      · intro h
        rcases h with h | ⟨hy, h⟩
        · omega
        · -- same year: x.month < d.month (day branch impossible: d.day = 1)
          have hxm : x.month ≤ d.month - 1 := by omega
          by_cases hxe : x.month = d.month - 1
          · right; refine ⟨hy, Or.inr ⟨hxe, ?_⟩⟩
            have : daysInMonth x.year x.month = daysInMonth d.year (d.month - 1) := by
              rw [hy, hxe]
            omega
          · right; exact ⟨hy, Or.inl (by omega)⟩
      · intro h
        rcases h with h | ⟨hy, h⟩
        · omega
        · rcases h with h | ⟨hm', _⟩
          · right; exact ⟨hy, Or.inl (by omega)⟩
          · right; exact ⟨hy, Or.inl (by omega)⟩
    · rw [if_neg hm]
      unfold date_lt date_le
      simp only
      have hdm : d.month = 1 := by omega
      have hdd : d.day = 1 := by omega
      constructor
      · intro h
        rcases h with h | ⟨hy, h⟩
        · by_cases hye : x.year = d.year - 1
          · right
            refine ⟨hye, ?_⟩
            by_cases hxm12 : x.month = 12
            · exact Or.inr ⟨hxm12, by
                have := daysInMonth_le_31 x.year x.month
                omega⟩
            · exact Or.inl (by omega)
          · left; omega
        · omega
      · intro h
        rcases h with h | ⟨hy, h⟩
        · left; omega
        · left; omega

lemma date_min_le_left (a b : Date) : date_le (date_min a b) a := by
  unfold date_min
  split
  · exact date_le_refl a
  · rcases date_le_total a b with h | h
    · exact absurd h (by assumption)
    · exact h

lemma date_min_le_right (a b : Date) : date_le (date_min a b) b := by
  unfold date_min
  split
  · assumption
  · exact date_le_refl b

-- -----------------------------
-- Period logic (join day based), from `current_period` / `period_to_from_to`
-- -----------------------------

/-- `current_period(join_date, today)` from the source: the evaluation
window `[start, end]`, both inclusive.  The `today` branch condition is
Python's `today >= this_anchor`. -/
def current_period (join_date today : Date) : Date × Date :=
  let join_day := join_date.day
  let this_anchor := clamp_day today.year today.month join_day
  let start_d :=
    if date_le this_anchor today then this_anchor
    else
      let prev := relativedelta_months ⟨today.year, today.month, 1⟩ (-1)
      clamp_day prev.year prev.month join_day
  let next_m := relativedelta_months ⟨start_d.year, start_d.month, 1⟩ 1
  (start_d, clamp_day next_m.year next_m.month join_day)

/-- `period_to_from_to(start_d, end_inclusive)` from the source, with the
hidden `date.today()` call made an explicit `today` argument
(`api_max = today - timedelta(days=1)`). -/
def period_to_from_to (start_d end_inclusive today : Date) : Date × Date :=
  let api_max := date_pred today
  let to_d := date_min end_inclusive api_max
  if date_lt to_d start_d then (to_d, to_d) else (start_d, to_d)

/-- The defensive clip at the top of `fetch_status_complete_map_cached`:
`if to_d >= today: to_d = today - 1; if from_d > to_d: from_d = to_d`. -/
def status_fetch_clip (from_d to_d today : Date) : Date × Date :=
  let to2 := if date_le today to_d then date_pred today else to_d
  if date_lt to2 from_d then (to2, to2) else (from_d, to2)

/-- The previous evaluation period computed by the `check` route:
`prev_end_incl = cur_start - timedelta(days=1)`;
`prev_start = cur_start - relativedelta(months=1)`. -/
def previous_period (cur_start : Date) : Date × Date :=
  (relativedelta_months cur_start (-1), date_pred cur_start)

/-- Follows the spec's words, for comparison with `previous_period`:
"endInclusive = currentStart − 1 day; start = currentStart shifted back one
calendar month via the same clamp rule", i.e. `clampDay` applied to the
previous calendar month with currentStart's day as the target. -/
def previous_period_spec (cur_start : Date) : Date × Date :=
  (clamp_day (prev_ym cur_start.year cur_start.month).1
    (prev_ym cur_start.year cur_start.month).2 cur_start.day,
   date_pred cur_start)

-- -----------------------------
-- String helpers, from `norm_name` / `last4_from_phone` and `re` use sites
-- -----------------------------

/-- The characters Python's `\s` / `str.strip()` treat as whitespace
(ASCII range; the names in play contain no exotic Unicode spaces). -/
def isPySpace (c : Char) : Bool :=
  c = ' ' || c = '\t' || c = '\n' || c = '\r' || c = '\x0b' || c = '\x0c'

/-- Python `str.strip()`. -/
def py_strip (s : String) : String :=
  String.mk (((s.toList.dropWhile isPySpace).reverse.dropWhile isPySpace).reverse)

/-- `norm_name`: drop all whitespace (`re.sub(r"\s+", "", x)`, after which
`.strip()` is a no-op) and lowercase (`.lower()`, ASCII range). -/
def norm_name (x : String) : String :=
  String.mk ((x.toList.filter (fun c => !isPySpace c)).map Char.toLower)

/-- `list_starts_with needle hay`: `needle` is an initial segment of `hay`. -/
def list_starts_with : List Char → List Char → Bool
  | [], _ => true
  | _ :: _, [] => false
  | n :: ns, h :: hs => n = h && list_starts_with ns hs

/-- Python's substring test `needle in hay`. -/
def contains_sub (hay needle : String) : Bool :=
  (hay.toList.tails).any (fun t => list_starts_with needle.toList t)

/-- `last4_from_phone`: remove literal spaces (`phone.replace(" ", "")`),
then `re.search(r"(\d{4})\s*$", ...)`: the last four characters before any
trailing whitespace must all be digits; otherwise the result is `""`. -/
def last4_from_phone (phone : String) : String :=
  let cs := phone.toList.filter (fun c => c ≠ ' ')
  let cs := (cs.reverse.dropWhile isPySpace).reverse
  let tail4 := (cs.reverse.take 4).reverse
  if tail4.length = 4 && tail4.all Char.isDigit then String.mk tail4 else ""

/-- `re.fullmatch(r"\d{4}", s)` as a boolean. -/
def is_four_digits (s : String) : Bool :=
  s.length = 4 && s.toList.all Char.isDigit

/-- Python `str.upper()` (ASCII range; status codes are ASCII). -/
def str_upper (s : String) : String :=
  String.mk (s.toList.map Char.toUpper)

-- -----------------------------
-- Data model: worker records and the persisted override maps
-- -----------------------------

/-- `accountStatus: { code, desc }` of a roster record; either field may be
absent or null (`st.get("code") or ""`). -/
structure AccountStatus where
  code : Option String
  desc : Option String
deriving DecidableEq, Repr

/-- A roster worker record as consumed by the core: `rider.get("name")`,
`rider.get("phoneNumber")`, `rider.get("createdDate")`,
`rider.get("accountStatus")`; any field may be absent. -/
structure Rider where
  name : Option String
  phoneNumber : Option String
  createdDate : Option String
  accountStatus : Option AccountStatus
deriving DecidableEq, Repr

/-- `dict.get` on the persisted string-to-string override maps
(`load_overrides()` / `load_login4_map()` results, passed explicitly). -/
def dict_get (m : List (String × String)) (k : String) : Option String :=
  (m.find? (fun p => p.1 == k)).map Prod.snd

/-- `is_ended_contract(rider)`: the status code (uppercased) contains
`END`, `TERMIN` or `EXPIRE`, or the description contains both `계약` and
`종료`. -/
def is_ended_contract (rider : Rider) : Bool :=
  let st := rider.accountStatus.getD ⟨none, none⟩
  let code := str_upper (st.code.getD "")
  let desc := st.desc.getD ""
  if contains_sub code "END" || contains_sub code "TERMIN" || contains_sub code "EXPIRE" then
    true
  else if contains_sub desc "계약" && contains_sub desc "종료" then
    true
  else
    false

-- -----------------------------
-- ISO date parsing, from `safe_date_parse` / `date.fromisoformat`
-- -----------------------------

/-- `date.fromisoformat` on a `YYYY-MM-DD` candidate: `none` models the
`ValueError` Python raises on malformed input or an impossible date. -/
def date_fromisoformat (s : String) : Option Date :=
  match s.toList with
  | [y1, y2, y3, y4, h1, m1, m2, h2, d1, d2] =>
    if y1.isDigit && y2.isDigit && y3.isDigit && y4.isDigit && h1 = '-' &&
        m1.isDigit && m2.isDigit && h2 = '-' && d1.isDigit && d2.isDigit then
      let y : Nat := ((y1.toNat - 48) * 1000 + (y2.toNat - 48) * 100 +
        (y3.toNat - 48) * 10 + (y4.toNat - 48))
      let mo : Nat := (m1.toNat - 48) * 10 + (m2.toNat - 48)
      let dy : Nat := (d1.toNat - 48) * 10 + (d2.toNat - 48)
      if 1 ≤ y && 1 ≤ mo && mo ≤ 12 && 1 ≤ dy && dy ≤ daysInMonth (y : Int) mo then
        some ⟨(y : Int), mo, dy⟩
      else
        none
    else
      none
  | _ => none

/-- `safe_date_parse(s)`: strip, then `date.fromisoformat`, with the
exception swallowed into `None`. -/
def safe_date_parse (s : String) : Option Date :=
  date_fromisoformat (py_strip s)

-- -----------------------------
-- Identity resolution: `get_login4_for_rider` and the join-date override
-- -----------------------------

/-- `get_login4_for_rider(rider)` with the persisted login-override map
passed explicitly.  Returns `(login4, real4, source)`. -/
def get_login4_for_rider (m : List (String × String)) (rider : Rider) :
    String × String × String :=
  let nm := rider.name.getD ""
  let ph := rider.phoneNumber.getD ""
  let real4 := last4_from_phone ph
  let k_real := norm_name nm ++ "|" ++ real4
  match dict_get m k_real with
  | some v => if is_four_digits (py_strip v) then (py_strip v, real4, "override")
              else (real4, real4, "real")
  | none => (real4, real4, "real")

/-- `get_effective_join_date_by_login_key(rider, login4)` with the persisted
join-date override map and the `date.today()` value passed explicitly.
`none` models the `ValueError` that `date.fromisoformat(created_raw[:10])`
raises when `createdDate` is at least 10 characters long but its first 10
characters are not a valid ISO date. -/
def get_effective_join_date_by_login_key (overrides : List (String × String))
    (rider : Rider) (login4 : String) (today : Date) : Option (Date × String) :=
  let nm := rider.name.getD ""
  let key := norm_name nm ++ "|" ++ login4
  let ovStep : Option (Date × String) :=
    match dict_get overrides key with
    | some ov =>
      -- `if ov:` then `if safe_date_parse(ov):`
      if ov = "" then none else (safe_date_parse ov).map (fun d => (d, "override"))
    | none => none
  match ovStep with
  | some r => some r
  | none =>
    match rider.createdDate with
    | some s =>
      if 10 ≤ s.length then
        (date_fromisoformat (s.take 10)).map (fun d => (d, "createdDate"))
      else
        some (today, "fallback")
    | none => some (today, "fallback")

-- -----------------------------
-- The `check` route's match set and the dashboard's roster rows
-- -----------------------------

/-- The two filters of the `check` route: same normalized name, then the
resolved login suffix equals the submitted one. -/
def check_matches (m : List (String × String)) (riders : List Rider)
    (name_in login4 : String) : List Rider :=
  let candidates := riders.filter (fun r => norm_name (r.name.getD "") == name_in)
  candidates.filter (fun r => (get_login4_for_rider m r).1 == login4)

/-- The dashboard's roster-row filter: skip workers with no parseable real
suffix, and apply the name-or-suffix search (`qn not in norm_name(nm)+real4`
skips). -/
def dashboard_rider_rows (riders : List Rider) (q : String) : List Rider :=
  riders.filter (fun rr =>
    let nm := rr.name.getD ""
    let real4 := last4_from_phone (rr.phoneNumber.getD "")
    if real4 = "" then false
    else if norm_name q ≠ "" ∧ contains_sub (norm_name nm ++ real4) (norm_name q) = false then false
    else true)

-- -----------------------------
-- Grade rules, from `grade_from_total` / `next_grade_target`
-- -----------------------------

/-- `grade_from_total(total)`. -/
def grade_from_total (total : Nat) : String :=
  if total ≤ 479 then "무등급"
  else if total ≤ 719 then "R5"
  else if total ≤ 959 then "R4"
  else if total ≤ 1199 then "R3"
  else if total ≤ 1439 then "R2"
  else "R1"

/-- The `thresholds` table of `next_grade_target`, lifted to the top level. -/
def thresholds : List (String × Nat) :=
  [("무등급", 0), ("R5", 480), ("R4", 720), ("R3", 960), ("R2", 1200), ("R1", 1440)]

/-- `[g for g, _ in thresholds].index(cur)`: the position of a grade label
in the table (the labels' order). -/
def grade_rank (g : String) : Nat :=
  (thresholds.map Prod.fst).indexOf g

/-- `next_grade_target(total)`.  The subtraction `max(0, nxt_t - total)` is
Python integer arithmetic floored at zero, i.e. truncated subtraction on
`Nat`.  The `none` fallback of the table lookup is unreachable: the lookup
only happens when the current grade is not the last label. -/
def next_grade_target (total : Nat) : Option String × Option Nat :=
  if grade_from_total total = "R1" then (none, none)
  else
    match thresholds.get? (grade_rank (grade_from_total total) + 1) with
    | some (g, t) => (some g, some (t - total))
    | none => (none, none)

-- -----------------------------
-- External fetch layer, from `pw_get_json` and the two cached fetchers
-- -----------------------------

/-- The two failure kinds of `pw_get_json`:
`PermissionError("SESSION_EXPIRED_OR_FORBIDDEN")` for 401/403 and
`RuntimeError` for any other HTTP failure or an unparsable body. -/
inductive FetchErr where
  | permissionError : String → FetchErr
  | runtimeError : String → FetchErr
deriving DecidableEq, Repr

/-- An external HTTP response: a status and, when `r.json()` succeeds, a
parsed body (`none` models a body `r.json()` raises on). -/
structure HttpResponse (α : Type) where
  status : Nat
  body : Option α

/-- `pw_get_json`: 401/403 raise the session-expired kind, any other
status `>= 400` raises the generic kind, and so does a JSON parse failure. -/
def pw_get_json {α : Type} (r : HttpResponse α) : Except FetchErr α :=
  if r.status = 401 ∨ r.status = 403 then
    .error (.permissionError "SESSION_EXPIRED_OR_FORBIDDEN")
  else if 400 ≤ r.status then
    .error (.runtimeError "HTTP_STATUS")
  else
    match r.body with
    | some j => .ok j
    | none => .error (.runtimeError "JSON_PARSE")

/-- The dynamic shape of the roster response: a bare list, an envelope with
optional `items` / `data` fields, or something else entirely. -/
inductive RosterJson where
  | arr : List Rider → RosterJson
  | obj : Option (List Rider) → Option (List Rider) → RosterJson
  | other : RosterJson

/-- Python `x or fallback` on an optional list (an empty list is falsy). -/
def or_list (o : Option (List Rider)) (fallback : List Rider) : List Rider :=
  match o with
  | some l => if l.isEmpty then fallback else l
  | none => fallback

/-- `j` if a list, else `j.get("items") or j.get("data") or []`. -/
def roster_items : RosterJson → List Rider
  | .arr l => l
  | .obj items data => or_list items (or_list data [])
  | .other => []

/-- The module-level `_riders_cache` dict: `{"ts": ..., "data": ...}`. -/
structure RidersCache where
  ts : Int
  data : Option (List Rider)
deriving Repr

def RIDERS_CACHE_TTL : Int := 60

def STATUS_CACHE_TTL : Int := 30

/-- The cache-miss path of `fetch_riders_cached`: one roster fetch,
envelope normalization, the contract-status filter, then the cache write.
A fetch failure propagates and leaves the cache untouched. -/
def fetch_riders_network (cache : RidersCache) (now : Int)
    (resp : HttpResponse RosterJson) :
    Except FetchErr (List Rider) × RidersCache :=
  match pw_get_json resp with
  | .error e => (.error e, cache)
  | .ok j =>
    let items := (roster_items j).filter (fun r => !is_ended_contract r)
    (.ok items, ⟨now, some items⟩)

/-- `fetch_riders_cached`, with time, the cache and the network response
passed explicitly: a live cache entry is returned as is, otherwise the
network path runs. -/
def fetch_riders_cached (cache : RidersCache) (now : Int)
    (resp : HttpResponse RosterJson) :
    Except FetchErr (List Rider) × RidersCache :=
  match cache.data with
  | some d =>
    if now - cache.ts ≤ RIDERS_CACHE_TTL then (.ok d, cache)
    else fetch_riders_network cache now resp
  | none => fetch_riders_network cache now resp

/-- One row of a delivery-status page: `name`, `phoneNumber` and the nested
`deliveryAcceptanceCount.complete` count (flattened; a missing outer or
inner field is `none`). -/
structure StatusRow where
  name : Option String
  phoneNumber : Option String
  complete : Option Int

/-- One page of the paginated delivery-status response: the `data` field. -/
structure StatusPage where
  data : Option (List StatusRow)

/-- One `_status_cache` entry: `{"ts": ..., "data": ...}`. -/
structure StatusEntry where
  ts : Int
  data : List (String × Int)

/-- `_status_cache`, keyed by the `(from, to)` window.  The source keys the
dict by the pair's ISO rendering `f"{from}_{to}"`, which is injective on
dates, so the pair itself serves as the key. -/
def StatusCache : Type := List ((Date × Date) × StatusEntry)

def status_cache_get (cache : StatusCache) (k : Date × Date) : Option StatusEntry :=
  (List.find? (fun p => decide (p.1 = k)) cache).map Prod.snd

def status_cache_set (cache : StatusCache) (k : Date × Date) (e : StatusEntry) :
    StatusCache :=
  (k, e) :: List.filter (fun p => !decide (p.1 = k)) cache

/-- The map insert `complete[k] = int(cnt)`. -/
def dict_set (m : List (String × Int)) (k : String) (v : Int) : List (String × Int) :=
  (k, v) :: m.filter (fun p => p.1 != k)

/-- The per-row accumulation of one page: key `norm_name(name)|real4`,
count `(it.get("deliveryAcceptanceCount") or {}).get("complete") or 0`,
kept only when `k and real4` are both non-empty (`k` always is). -/
def accum_rows (complete : List (String × Int)) (rows : List StatusRow) :
    List (String × Int) :=
  rows.foldl (fun acc it =>
    let nm := it.name.getD ""
    let ph := it.phoneNumber.getD ""
    let real4 := last4_from_phone ph
    let k := norm_name nm ++ "|" ++ real4
    let cnt := it.complete.getD 0
    if k ≠ "" ∧ real4 ≠ "" then dict_set acc k cnt else acc) complete

/-- The pagination loop of `fetch_status_complete_map_cached`:
`while page < max_pages`, stop on an empty `data` list, propagate any fetch
failure.  The fuel is `max_pages - page`, 600 at the initial call. -/
def fetch_status_pages (pages : Nat → HttpResponse StatusPage) :
    Nat → Nat → List (String × Int) → Except FetchErr (List (String × Int))
  | _, 0, complete => .ok complete
  | page, fuel + 1, complete =>
    match pw_get_json (pages page) with
    | .error e => .error e
    | .ok j =>
      let rows := j.data.getD []
      if rows.isEmpty then .ok complete
      else fetch_status_pages pages (page + 1) fuel (accum_rows complete rows)

/-- The cache-miss path of `fetch_status_complete_map_cached`: run the
pagination loop; only a fully successful run writes the cache. -/
def fetch_status_network (cache : StatusCache) (now : Int) (key : Date × Date)
    (pages : Nat → HttpResponse StatusPage) :
    Except FetchErr (List (String × Int)) × StatusCache :=
  match fetch_status_pages pages 0 600 [] with
  | .error e => (.error e, cache)
  | .ok m => (.ok m, status_cache_set cache key ⟨now, m⟩)

/-- `fetch_status_complete_map_cached(from_d, to_d)` with time, today, the
cache and the paginated network responses passed explicitly.  The window is
first re-clipped to end no later than yesterday (`status_fetch_clip`). -/
def fetch_status_complete_map_cached (cache : StatusCache) (now : Int)
    (today : Date) (from_d to_d : Date) (pages : Nat → HttpResponse StatusPage) :
    Except FetchErr (List (String × Int)) × StatusCache :=
  let key := status_fetch_clip from_d to_d today
  match status_cache_get cache key with
  | some entry =>
    if now - entry.ts ≤ STATUS_CACHE_TTL then (.ok entry.data, cache)
    else fetch_status_network cache now key pages
  | none => fetch_status_network cache now key pages

-- -----------------------------
-- Grade rules: evaluation lemmas
-- -----------------------------

lemma gft1 {t : Nat} (h : t ≤ 479) : grade_from_total t = "무등급" := by
  unfold grade_from_total; rw [if_pos h]

lemma gft2 {t : Nat} (h1 : 480 ≤ t) (h2 : t ≤ 719) : grade_from_total t = "R5" := by
  unfold grade_from_total; rw [if_neg (by omega), if_pos h2]

lemma gft3 {t : Nat} (h1 : 720 ≤ t) (h2 : t ≤ 959) : grade_from_total t = "R4" := by
  unfold grade_from_total; rw [if_neg (by omega), if_neg (by omega), if_pos h2]

lemma gft4 {t : Nat} (h1 : 960 ≤ t) (h2 : t ≤ 1199) : grade_from_total t = "R3" := by
  unfold grade_from_total
  rw [if_neg (by omega), if_neg (by omega), if_neg (by omega), if_pos h2]

lemma gft5 {t : Nat} (h1 : 1200 ≤ t) (h2 : t ≤ 1439) : grade_from_total t = "R2" := by
  unfold grade_from_total
  rw [if_neg (by omega), if_neg (by omega), if_neg (by omega), if_neg (by omega),
    if_pos h2]

lemma gft6 {t : Nat} (h1 : 1440 ≤ t) : grade_from_total t = "R1" := by
  unfold grade_from_total
  rw [if_neg (by omega), if_neg (by omega), if_neg (by omega), if_neg (by omega),
    if_neg (by omega)]

lemma rank_gft (t : Nat) : grade_rank (grade_from_total t) =
    if t ≤ 479 then 0 else if t ≤ 719 then 1 else if t ≤ 959 then 2
    else if t ≤ 1199 then 3 else if t ≤ 1439 then 4 else 5 := by
  unfold grade_from_total
  split_ifs <;> decide

lemma ngt_eval1 {t : Nat} (h : t ≤ 479) :
    next_grade_target t = (some "R5", some (480 - t)) := by
  unfold next_grade_target; rw [gft1 h]; rfl

lemma ngt_eval2 {t : Nat} (h1 : 480 ≤ t) (h2 : t ≤ 719) :
    next_grade_target t = (some "R4", some (720 - t)) := by
  unfold next_grade_target; rw [gft2 h1 h2]; rfl

lemma ngt_eval3 {t : Nat} (h1 : 720 ≤ t) (h2 : t ≤ 959) :
    next_grade_target t = (some "R3", some (960 - t)) := by
  unfold next_grade_target; rw [gft3 h1 h2]; rfl

lemma ngt_eval4 {t : Nat} (h1 : 960 ≤ t) (h2 : t ≤ 1199) :
    next_grade_target t = (some "R2", some (1200 - t)) := by
  unfold next_grade_target; rw [gft4 h1 h2]; rfl

lemma ngt_eval5 {t : Nat} (h1 : 1200 ≤ t) (h2 : t ≤ 1439) :
    next_grade_target t = (some "R1", some (1440 - t)) := by
  unfold next_grade_target; rw [gft5 h1 h2]; rfl

lemma ngt_eval6 {t : Nat} (h1 : 1440 ≤ t) : next_grade_target t = (none, none) := by
  unfold next_grade_target; rw [gft6 h1]; rfl

/-- Claim C6: `grade_from_total` maps every non-negative completion count to
the grade of the highest threshold not exceeding it over the fixed table
0/480/720/960/1200/1440; `grade_from_total 479` is the unranked grade, 480
reaches the first ranked grade, 1440 the top grade, and the grade is
monotone non-decreasing in the count under the label order
무등급 < R5 < R4 < R3 < R2 < R1 (positions in `thresholds`). -/
theorem grade_tier_thresholds :
    grade_from_total 479 = "무등급" ∧ grade_from_total 480 = "R5" ∧
    grade_from_total 1440 = "R1" ∧
    (∀ t : Nat, ∃ p, p ∈ thresholds ∧ grade_from_total t = p.1 ∧ p.2 ≤ t ∧
      ∀ q, q ∈ thresholds → q.2 ≤ t → grade_rank q.1 ≤ grade_rank p.1) ∧
    (∀ a b : Nat, a ≤ b →
      grade_rank (grade_from_total a) ≤ grade_rank (grade_from_total b)) := by
  refine ⟨by decide, by decide, by decide, ?_, ?_⟩
  · intro t
    by_cases h1 : t ≤ 479
    · refine ⟨("무등급", 0), by decide, gft1 h1, by simp, ?_⟩
      intro q hq hle
      simp only [thresholds, List.mem_cons, List.not_mem_nil, or_false] at hq
      rcases hq with rfl | rfl | rfl | rfl | rfl | rfl <;> dsimp only at hle ⊢ <;>
        first | decide | omega
    · by_cases h2 : t ≤ 719
      · refine ⟨("R5", 480), by decide, gft2 (by omega) h2, by dsimp only; omega, ?_⟩
        intro q hq hle
        simp only [thresholds, List.mem_cons, List.not_mem_nil, or_false] at hq
        rcases hq with rfl | rfl | rfl | rfl | rfl | rfl <;> dsimp only at hle ⊢ <;>
          first | decide | omega
      · by_cases h3 : t ≤ 959
        · refine ⟨("R4", 720), by decide, gft3 (by omega) h3, by dsimp only; omega, ?_⟩
          intro q hq hle
          simp only [thresholds, List.mem_cons, List.not_mem_nil, or_false] at hq
          rcases hq with rfl | rfl | rfl | rfl | rfl | rfl <;> dsimp only at hle ⊢ <;>
            first | decide | omega
        · by_cases h4 : t ≤ 1199
          · refine ⟨("R3", 960), by decide, gft4 (by omega) h4, by dsimp only; omega, ?_⟩
            intro q hq hle
            simp only [thresholds, List.mem_cons, List.not_mem_nil, or_false] at hq
            rcases hq with rfl | rfl | rfl | rfl | rfl | rfl <;> dsimp only at hle ⊢ <;>
              first | decide | omega
          · by_cases h5 : t ≤ 1439
            · refine ⟨("R2", 1200), by decide, gft5 (by omega) h5, by dsimp only; omega, ?_⟩
              intro q hq hle
              simp only [thresholds, List.mem_cons, List.not_mem_nil, or_false] at hq
              rcases hq with rfl | rfl | rfl | rfl | rfl | rfl <;> dsimp only at hle ⊢ <;>
                first | decide | omega
            · refine ⟨("R1", 1440), by decide, gft6 (by omega), by dsimp only; omega, ?_⟩
              intro q hq hle
              simp only [thresholds, List.mem_cons, List.not_mem_nil, or_false] at hq
              rcases hq with rfl | rfl | rfl | rfl | rfl | rfl <;> dsimp only at hle ⊢ <;>
                first | decide | omega
  · intro a b hab
    rw [rank_gft, rank_gft]
    split_ifs <;> omega

/-- Witness for C6: a concrete monotonicity instance, 100 ≤ 1300. -/
theorem grade_tier_thresholds_witness :
    grade_rank (grade_from_total 100) ≤ grade_rank (grade_from_total 1300) :=
  grade_tier_thresholds.2.2.2.2 100 1300 (by decide)

/-- Claim C7: `next_grade_target` returns `(None, None)` exactly when the
count is already in the top grade; otherwise it returns the next label of
the ascending threshold table together with that label's threshold minus
the count, floored at zero (truncated `Nat` subtraction). -/
theorem next_grade_target_behavior (t : Nat) :
    (next_grade_target t = (none, none) ↔ grade_from_total t = "R1") ∧
    (grade_from_total t ≠ "R1" →
      ∃ g th, thresholds.get? (grade_rank (grade_from_total t) + 1) = some (g, th) ∧
        next_grade_target t = (some g, some (th - t))) := by
  by_cases h1 : t ≤ 479
  · rw [ngt_eval1 h1, gft1 h1]
    exact ⟨by constructor <;> intro h <;> simp at h, fun _ => ⟨"R5", 480, by decide, rfl⟩⟩
  · by_cases h2 : t ≤ 719
    · rw [ngt_eval2 (by omega) h2, gft2 (by omega) h2]
      exact ⟨by constructor <;> intro h <;> simp at h, fun _ => ⟨"R4", 720, by decide, rfl⟩⟩
    · by_cases h3 : t ≤ 959
      · rw [ngt_eval3 (by omega) h3, gft3 (by omega) h3]
        exact ⟨by constructor <;> intro h <;> simp at h, fun _ => ⟨"R3", 960, by decide, rfl⟩⟩
      · by_cases h4 : t ≤ 1199
        · rw [ngt_eval4 (by omega) h4, gft4 (by omega) h4]
          exact ⟨by constructor <;> intro h <;> simp at h, fun _ => ⟨"R2", 1200, by decide, rfl⟩⟩
        · by_cases h5 : t ≤ 1439
          · rw [ngt_eval5 (by omega) h5, gft5 (by omega) h5]
            exact ⟨by constructor <;> intro h <;> simp at h, fun _ => ⟨"R1", 1440, by decide, rfl⟩⟩
          · rw [ngt_eval6 (by omega), gft6 (by omega)]
            exact ⟨by simp, fun h => absurd rfl h⟩

/-- Witness for C7: at count 1000 the next grade is R2 with 200 remaining. -/
theorem next_grade_target_behavior_witness :
    ∃ g th, thresholds.get? (grade_rank (grade_from_total 1000) + 1) = some (g, th) ∧
      next_grade_target 1000 = (some g, some (th - 1000)) :=
  (next_grade_target_behavior 1000).2 (by decide)

/-- Claim C10: below the top grade, the remaining count returned by
`next_grade_target` is the exact distance to the next grade: it is at least
1, adding it reaches exactly the returned label, and one fewer still lands
in a strictly lower grade. -/
theorem next_grade_target_exact (t : Nat) (h : grade_from_total t ≠ "R1") :
    ∃ g r, next_grade_target t = (some g, some r) ∧ 1 ≤ r ∧
      grade_from_total (t + r) = g ∧
      grade_rank (grade_from_total (t + r - 1)) < grade_rank g := by
  by_cases h1 : t ≤ 479
  · refine ⟨"R5", 480 - t, ngt_eval1 h1, by omega, ?_, ?_⟩
    · have e : t + (480 - t) = 480 := by omega
      rw [e]; decide
    · have e : t + (480 - t) - 1 = 479 := by omega
      rw [e]; decide
  · by_cases h2 : t ≤ 719
    · refine ⟨"R4", 720 - t, ngt_eval2 (by omega) h2, by omega, ?_, ?_⟩
      · have e : t + (720 - t) = 720 := by omega
        rw [e]; decide
      · have e : t + (720 - t) - 1 = 719 := by omega
        rw [e]; decide
    · by_cases h3 : t ≤ 959
      · refine ⟨"R3", 960 - t, ngt_eval3 (by omega) h3, by omega, ?_, ?_⟩
        · have e : t + (960 - t) = 960 := by omega
          rw [e]; decide
        · have e : t + (960 - t) - 1 = 959 := by omega
          rw [e]; decide
      · by_cases h4 : t ≤ 1199
        · refine ⟨"R2", 1200 - t, ngt_eval4 (by omega) h4, by omega, ?_, ?_⟩
          · have e : t + (1200 - t) = 1200 := by omega
            rw [e]; decide
          · have e : t + (1200 - t) - 1 = 1199 := by omega
            rw [e]; decide
        · by_cases h5 : t ≤ 1439
          · refine ⟨"R1", 1440 - t, ngt_eval5 (by omega) h5, by omega, ?_, ?_⟩
            · have e : t + (1440 - t) = 1440 := by omega
              rw [e]; decide
            · have e : t + (1440 - t) - 1 = 1439 := by omega
              rw [e]; decide
          · exact absurd (gft6 (by omega)) h

/-- Witness for C10: at count 1000 the distance to R2 is exactly 200. -/
theorem next_grade_target_exact_witness :
    ∃ g r, next_grade_target 1000 = (some g, some r) ∧ 1 ≤ r ∧
      grade_from_total (1000 + r) = g ∧
      grade_rank (grade_from_total (1000 + r - 1)) < grade_rank g :=
  next_grade_target_exact 1000 (by decide)

-- -----------------------------
-- Date windows: evaluation lemmas
-- -----------------------------

lemma clamp_day_year (y : Int) (m t : Nat) : (clamp_day y m t).year = y := rfl

lemma clamp_day_month (y : Int) (m t : Nat) : (clamp_day y m t).month = m := rfl

lemma prev_ym_bounds (y : Int) (m : Nat) (h1 : 1 ≤ m) (h12 : m ≤ 12) :
    1 ≤ (prev_ym y m).2 ∧ (prev_ym y m).2 ≤ 12 := by
  unfold prev_ym; split <;> dsimp only <;> omega

lemma next_ym_bounds (y : Int) (m : Nat) (h1 : 1 ≤ m) (h12 : m ≤ 12) :
    1 ≤ (next_ym y m).2 ∧ (next_ym y m).2 ≤ 12 := by
  unfold next_ym; split <;> dsimp only <;> omega

lemma date_lt_clamp_next (Y : Int) (M t1 t2 : Nat) (h12 : M ≤ 12) :
    date_lt (clamp_day Y M t1)
      (clamp_day (next_ym Y M).1 (next_ym Y M).2 t2) := by
  unfold clamp_day next_ym date_lt
  split <;> dsimp only <;> omega

lemma current_period_eval_ge (join today : Date) (hm1 : 1 ≤ today.month)
    (hm12 : today.month ≤ 12)
    (hle : date_le (clamp_day today.year today.month join.day) today) :
    current_period join today =
      (clamp_day today.year today.month join.day,
       clamp_day (next_ym today.year today.month).1 (next_ym today.year today.month).2
         join.day) := by
  simp only [current_period, if_pos hle, clamp_day_year, clamp_day_month]
  rw [relativedelta_add_one ⟨today.year, today.month, 1⟩ hm1 hm12]

lemma current_period_eval_lt (join today : Date) (hm1 : 1 ≤ today.month)
    (hm12 : today.month ≤ 12)
    (hnle : ¬ date_le (clamp_day today.year today.month join.day) today) :
    current_period join today =
      (clamp_day (prev_ym today.year today.month).1 (prev_ym today.year today.month).2
         join.day,
       clamp_day (next_ym (prev_ym today.year today.month).1
           (prev_ym today.year today.month).2).1
         (next_ym (prev_ym today.year today.month).1
           (prev_ym today.year today.month).2).2 join.day) := by
  have hb := prev_ym_bounds today.year today.month hm1 hm12
  simp only [current_period, if_neg hnle, clamp_day_year, clamp_day_month]
  rw [relativedelta_sub_one ⟨today.year, today.month, 1⟩ hm1 hm12]
  dsimp only
  rw [relativedelta_add_one ⟨(prev_ym today.year today.month).1,
    (prev_ym today.year today.month).2, 1⟩ hb.1 hb.2]

/-- Claim C3: `current_period` starts at the clamped anchor of today's
month when `today >= anchor`, else at the clamped anchor of the previous
calendar month; its inclusive end is the clamped anchor (same target day)
of the month after the start; both bounds are valid calendar dates and the
start is strictly before the end — the window is one month anchor-to-anchor,
inclusive on both ends, computed totally. -/
theorem current_period_window (join today : Date) (hj : join.Valid)
    (ht : today.Valid) :
    (date_le (clamp_day today.year today.month join.day) today →
      (current_period join today).1 = clamp_day today.year today.month join.day) ∧
    (¬ date_le (clamp_day today.year today.month join.day) today →
      (current_period join today).1 =
        clamp_day (prev_ym today.year today.month).1
          (prev_ym today.year today.month).2 join.day) ∧
    (current_period join today).2 =
      clamp_day (next_ym (current_period join today).1.year
          (current_period join today).1.month).1
        (next_ym (current_period join today).1.year
          (current_period join today).1.month).2 join.day ∧
    (current_period join today).1.Valid ∧
    (current_period join today).2.Valid ∧
    date_lt (current_period join today).1 (current_period join today).2 := by
  obtain ⟨hm1, hm12, _, _⟩ := ht
  obtain ⟨hjm1, hjm12, hjd1, _⟩ := hj
  by_cases hle : date_le (clamp_day today.year today.month join.day) today
  · rw [current_period_eval_ge join today hm1 hm12 hle]
    have hnb := next_ym_bounds today.year today.month hm1 hm12
    refine ⟨fun _ => rfl, fun h => absurd hle h, ?_, ?_, ?_, ?_⟩
    · dsimp only [clamp_day_year, clamp_day_month]
    · exact clamp_day_valid _ _ _ hm1 hm12 hjd1
    · exact clamp_day_valid _ _ _ hnb.1 hnb.2 hjd1
    · exact date_lt_clamp_next _ _ _ _ hm12
  · rw [current_period_eval_lt join today hm1 hm12 hle]
    have hpb := prev_ym_bounds today.year today.month hm1 hm12
    have hnb := next_ym_bounds (prev_ym today.year today.month).1
      (prev_ym today.year today.month).2 hpb.1 hpb.2
    refine ⟨fun h => absurd h hle, fun _ => rfl, ?_, ?_, ?_, ?_⟩
    · dsimp only [clamp_day_year, clamp_day_month]
    · exact clamp_day_valid _ _ _ hpb.1 hpb.2 hjd1
    · exact clamp_day_valid _ _ _ hnb.1 hnb.2 hjd1
    · exact date_lt_clamp_next _ _ _ _ hpb.2

/-- Witness for C3: the strict start-before-end fact at join 2024-03-24,
today 2025-01-10. -/
theorem current_period_window_witness :
    date_lt (current_period ⟨2024, 3, 24⟩ ⟨2025, 1, 10⟩).1
      (current_period ⟨2024, 3, 24⟩ ⟨2025, 1, 10⟩).2 :=
  (current_period_window ⟨2024, 3, 24⟩ ⟨2025, 1, 10⟩ (by decide) (by decide)).2.2.2.2.2

/-- Claim C4: the previous period of the `check` route has
`endInclusive = currentStart - 1 day`, and its start — computed with
dateutil's `relativedelta(months=1)` shift — is extensionally the
`clamp_day` of the previous calendar month at currentStart's day, so the
implementation agrees with the spec-worded `previous_period_spec` on every
valid date, across all month-length boundaries. -/
theorem previous_period_refines_clamp (cur_start : Date) (h : cur_start.Valid) :
    previous_period cur_start = previous_period_spec cur_start ∧
    (previous_period cur_start).2 = date_pred cur_start ∧
    (previous_period cur_start).1 =
      clamp_day (prev_ym cur_start.year cur_start.month).1
        (prev_ym cur_start.year cur_start.month).2 cur_start.day := by
  obtain ⟨h1, h12, _, _⟩ := h
  have hb := prev_ym_bounds cur_start.year cur_start.month h1 h12
  have hrel := relativedelta_sub_one cur_start h1 h12
  refine ⟨?_, rfl, ?_⟩
  · unfold previous_period previous_period_spec
    rw [hrel, clamp_day_eq _ _ _ hb.1 hb.2]
  · show relativedelta_months cur_start (-1) = _
    rw [hrel, clamp_day_eq _ _ _ hb.1 hb.2]

/-- Witness for C4: the month-length boundary 2024-03-31; the previous
period is (2024-02-29, 2024-03-30) under both formulations. -/
theorem previous_period_refines_clamp_witness :
    previous_period ⟨2024, 3, 31⟩ = previous_period_spec ⟨2024, 3, 31⟩ :=
  (previous_period_refines_clamp ⟨2024, 3, 31⟩ (by decide)).1

/-- Claim C5: `period_to_from_to` yields `apiTo = min(endInclusive,
today - 1 day)` and `apiFrom = start` unless that inverts the interval, in
which case `apiFrom` collapses to `apiTo`; so `apiFrom <= apiTo` always and
`apiTo` is strictly before today; the same clip computed inside
`fetch_status_complete_map_cached` agrees with it and re-applying it to an
already-clipped range changes nothing. -/
theorem to_api_range_clip (start_d end_inclusive today : Date)
    (he : end_inclusive.Valid) (ht : today.Valid)
    (hse : date_le start_d end_inclusive) :
    (period_to_from_to start_d end_inclusive today).2 =
      date_min end_inclusive (date_pred today) ∧
    (date_le start_d (period_to_from_to start_d end_inclusive today).2 →
      (period_to_from_to start_d end_inclusive today).1 = start_d) ∧
    (¬ date_le start_d (period_to_from_to start_d end_inclusive today).2 →
      (period_to_from_to start_d end_inclusive today).1 =
        (period_to_from_to start_d end_inclusive today).2) ∧
    date_le (period_to_from_to start_d end_inclusive today).1
      (period_to_from_to start_d end_inclusive today).2 ∧
    date_lt (period_to_from_to start_d end_inclusive today).2 today ∧
    status_fetch_clip start_d end_inclusive today =
      period_to_from_to start_d end_inclusive today ∧
    status_fetch_clip (period_to_from_to start_d end_inclusive today).1
      (period_to_from_to start_d end_inclusive today).2 today =
      period_to_from_to start_d end_inclusive today := by
  have hpred := date_pred_lt today ht
  have hsnd : (period_to_from_to start_d end_inclusive today).2 =
      date_min end_inclusive (date_pred today) := by
    simp only [period_to_from_to]
    split <;> rfl
  have hTlt : date_lt (period_to_from_to start_d end_inclusive today).2 today := by
    rw [hsnd]
    exact date_lt_of_le_of_lt (date_min_le_right _ _) hpred
  have hfst_le : date_le (period_to_from_to start_d end_inclusive today).1
      (period_to_from_to start_d end_inclusive today).2 := by
    simp only [period_to_from_to]
    split
    · exact date_le_refl _
    · next hc =>
      by_contra hns
      exact hc (date_lt_iff_not_le.mpr hns)
  have hto2 : (if date_le today end_inclusive then date_pred today else end_inclusive) =
      date_min end_inclusive (date_pred today) := by
    by_cases hte : date_le today end_inclusive
    · rw [if_pos hte]
      unfold date_min
      rw [if_neg ?_]
      intro hle
      have h1 : date_lt end_inclusive today := date_lt_of_le_of_lt hle hpred
      rw [date_lt_iff_not_le] at h1
      exact h1 hte
    · rw [if_neg hte]
      have h1 : date_lt end_inclusive today := by
        rw [date_lt_iff_not_le]
        intro h
        exact hte h
      have h2 : date_le end_inclusive (date_pred today) :=
        (date_lt_iff_le_pred end_inclusive today he ht).1 h1
      unfold date_min
      rw [if_pos h2]
  have hclip : status_fetch_clip start_d end_inclusive today =
      period_to_from_to start_d end_inclusive today := by
    simp only [status_fetch_clip, period_to_from_to, hto2]
  refine ⟨hsnd, ?_, ?_, hfst_le, hTlt, hclip, ?_⟩
  · intro hs
    rw [hsnd] at hs
    simp only [period_to_from_to]
    split
    · next hc =>
      exact absurd hs (date_lt_iff_not_le.mp hc)
    · rfl
  · intro hs
    rw [hsnd] at hs
    simp only [period_to_from_to]
    split
    · rfl
    · next hc =>
      exfalso
      exact hs (by by_contra hns; exact hc (date_lt_iff_not_le.mpr hns))
  · have hT2 : ¬ date_le today (period_to_from_to start_d end_inclusive today).2 := by
      rw [← date_lt_iff_not_le]
      exact hTlt
    have hf2 : ¬ date_lt (period_to_from_to start_d end_inclusive today).2
        (period_to_from_to start_d end_inclusive today).1 := by
      rw [date_lt_iff_not_le]
      intro h
      exact h hfst_le
    simp only [status_fetch_clip, if_neg hT2, if_neg hf2]

/-- Witness for C5: the window 2024-12-24 .. 2025-01-24 seen on
2025-01-10; both clips agree on (2024-12-24, 2025-01-09). -/
theorem to_api_range_clip_witness :
    status_fetch_clip ⟨2024, 12, 24⟩ ⟨2025, 1, 24⟩ ⟨2025, 1, 10⟩ =
      period_to_from_to ⟨2024, 12, 24⟩ ⟨2025, 1, 24⟩ ⟨2025, 1, 10⟩ :=
  (to_api_range_clip ⟨2024, 12, 24⟩ ⟨2025, 1, 24⟩ ⟨2025, 1, 10⟩ (by decide)
    (by decide) (by decide)).2.2.2.2.2.1

-- -----------------------------
-- Effective join date (C1)
-- -----------------------------

/-- When no override value for the key parses (absent, empty or malformed),
`get_effective_join_date_by_login_key` proceeds to the `createdDate` step. -/
lemma eff_join_no_override (overrides : List (String × String)) (rider : Rider)
    (login4 : String) (today : Date)
    (hmiss : ∀ ov, dict_get overrides
        (norm_name (rider.name.getD "") ++ "|" ++ login4) = some ov →
      safe_date_parse ov = none) :
    get_effective_join_date_by_login_key overrides rider login4 today =
      match rider.createdDate with
      | some s =>
        if 10 ≤ s.length then
          (date_fromisoformat (s.take 10)).map (fun d => (d, "createdDate"))
        else some (today, "fallback")
      | none => some (today, "fallback") := by
  simp only [get_effective_join_date_by_login_key]
  cases hget : dict_get overrides (norm_name (rider.name.getD "") ++ "|" ++ login4) with
  | none => rfl
  | some ov =>
    by_cases h0 : ov = ""
    · simp [h0]
    · simp only [if_neg h0, hmiss ov hget, Option.map_none']

/-- Counterexample to claim C1 as stated: a worker whose `createdDate` is a
10-character string that is not a valid ISO date.  The claim says the
function falls back to `today` with the fallback label and never raises;
the code instead evaluates `date.fromisoformat("ABCDEFGHIJ")`, which raises
`ValueError` (modelled as `none`) — no fallback happens. -/
theorem effective_join_date_malformed_created_raises :
    get_effective_join_date_by_login_key []
      ⟨some "kim", some "010-1234-5678", some "ABCDEFGHIJ", none⟩ "5678"
      ⟨2025, 1, 10⟩ = none := by decide

/-- Claim C1 (amended): the effective join date follows the precedence
override > platform-reported > today with the matching source label, where
a parseable override wins; with no usable override, a `createdDate` string
of length at least 10 is answered from its first 10 characters with label
`createdDate` — raising (modelled `none`) when those 10 characters are not
a valid date — and the fallback to `today` happens exactly when
`createdDate` is absent or shorter than 10 characters. -/
theorem effective_join_date_precedence (overrides : List (String × String))
    (rider : Rider) (login4 : String) (today : Date) :
    (∀ ov d, dict_get overrides
        (norm_name (rider.name.getD "") ++ "|" ++ login4) = some ov →
      safe_date_parse ov = some d →
      get_effective_join_date_by_login_key overrides rider login4 today =
        some (d, "override")) ∧
    ((∀ ov, dict_get overrides
        (norm_name (rider.name.getD "") ++ "|" ++ login4) = some ov →
      safe_date_parse ov = none) →
      (∀ s, rider.createdDate = some s → 10 ≤ s.length →
        get_effective_join_date_by_login_key overrides rider login4 today =
          (date_fromisoformat (s.take 10)).map (fun d => (d, "createdDate"))) ∧
      ((rider.createdDate = none ∨
          ∃ s, rider.createdDate = some s ∧ s.length < 10) →
        get_effective_join_date_by_login_key overrides rider login4 today =
          some (today, "fallback"))) := by
  constructor
  · intro ov d hov hparse
    have hne : ov ≠ "" := by
      intro h
      subst h
      exact Option.noConfusion ((rfl : safe_date_parse "" = none) ▸ hparse)
    simp only [get_effective_join_date_by_login_key]
    rw [hov]
    simp only [if_neg hne, hparse, Option.map_some']
  · intro hmiss
    rw [eff_join_no_override overrides rider login4 today hmiss]
    constructor
    · intro s hs hlen
      rw [hs]
      simp only [if_pos hlen]
    · intro hcase
      rcases hcase with h | ⟨s, hs, hlen⟩
      · rw [h]
      · rw [hs]
        simp only [if_neg (by omega : ¬ 10 ≤ s.length)]

/-- Witness for C1: a parseable override beats a present `createdDate`. -/
theorem effective_join_date_precedence_witness :
    get_effective_join_date_by_login_key [("kim|1234", "2024-05-01")]
      ⟨some "Kim", none, some "2024-03-24", none⟩ "1234" ⟨2025, 1, 10⟩ =
      some (⟨2024, 5, 1⟩, "override") :=
  (effective_join_date_precedence [("kim|1234", "2024-05-01")]
    ⟨some "Kim", none, some "2024-03-24", none⟩ "1234" ⟨2025, 1, 10⟩).1
    "2024-05-01" ⟨2024, 5, 1⟩ (by decide) (by decide)

-- -----------------------------
-- Identity resolution (C2)
-- -----------------------------

/-- The per-rider matching test of the `check` route: same normalized name
and the resolved login suffix equals the submitted one. -/
def check_rider_matches (m : List (String × String)) (r : Rider)
    (name_in login4 : String) : Bool :=
  (norm_name (r.name.getD "") == name_in) && ((get_login4_for_rider m r).1 == login4)

lemma mem_check_matches (m : List (String × String)) (riders : List Rider)
    (name_in login4 : String) (r : Rider) :
    r ∈ check_matches m riders name_in login4 ↔
      r ∈ riders ∧ check_rider_matches m r name_in login4 = true := by
  unfold check_matches check_rider_matches
  simp only [List.mem_filter, Bool.and_eq_true]
  tauto

lemma gl4_override {m : List (String × String)} {rider : Rider} {v : String}
    (hv : dict_get m (norm_name (rider.name.getD "") ++ "|" ++
      last4_from_phone (rider.phoneNumber.getD "")) = some v)
    (h4 : is_four_digits (py_strip v) = true) :
    get_login4_for_rider m rider =
      (py_strip v, last4_from_phone (rider.phoneNumber.getD ""), "override") := by
  simp only [get_login4_for_rider]
  rw [hv]
  simp only [if_pos h4]

lemma gl4_real_none {m : List (String × String)} {rider : Rider}
    (hv : dict_get m (norm_name (rider.name.getD "") ++ "|" ++
      last4_from_phone (rider.phoneNumber.getD "")) = none) :
    get_login4_for_rider m rider =
      (last4_from_phone (rider.phoneNumber.getD ""),
       last4_from_phone (rider.phoneNumber.getD ""), "real") := by
  simp only [get_login4_for_rider]
  rw [hv]

lemma gl4_real_bad {m : List (String × String)} {rider : Rider} {v : String}
    (hv : dict_get m (norm_name (rider.name.getD "") ++ "|" ++
      last4_from_phone (rider.phoneNumber.getD "")) = some v)
    (h4 : is_four_digits (py_strip v) = false) :
    get_login4_for_rider m rider =
      (last4_from_phone (rider.phoneNumber.getD ""),
       last4_from_phone (rider.phoneNumber.getD ""), "real") := by
  simp only [get_login4_for_rider]
  rw [hv]
  simp only [h4, if_neg Bool.false_ne_true]

/-- Counterexample to claim C2 as stated: the admin endpoint accepts a
login-suffix override whose stored value equals the worker's real suffix
(both are 4-digit strings), and then a lookup with the real suffix still
matches while the source label is `override` — contradicting "a lookup with
the real suffix no longer matches". -/
theorem login4_override_equal_real_still_matches :
    (get_login4_for_rider [("kim|1234", "1234")]
      ⟨some "kim", some "010-9999-1234", none, none⟩).2.2 = "override" ∧
    check_rider_matches [("kim|1234", "1234")]
      ⟨some "kim", some "010-9999-1234", none, none⟩ "kim" "1234" = true := by
  decide

/-- Claim C2 (amended): identity resolution returns the worker's real
suffix (last 4 digits of the phone-like string) as its second component;
a stored override whose stripped value is exactly 4 digits is returned as
the login suffix with source `override`, and then the override value
matches the `check` test while the real suffix matches only if the stored
value equals it; with no such entry the resolution is
`(realSuffix, realSuffix, "real")`; and a worker with an empty real suffix
matches no 4-digit login suffix as long as no override entry is stored
under its (empty-suffix) key. -/
theorem login4_resolution (m : List (String × String)) (rider : Rider) :
    (get_login4_for_rider m rider).2.1 =
      last4_from_phone (rider.phoneNumber.getD "") ∧
    (∀ v, dict_get m (norm_name (rider.name.getD "") ++ "|" ++
        last4_from_phone (rider.phoneNumber.getD "")) = some v →
      is_four_digits (py_strip v) = true →
      get_login4_for_rider m rider =
        (py_strip v, last4_from_phone (rider.phoneNumber.getD ""), "override") ∧
      check_rider_matches m rider (norm_name (rider.name.getD "")) (py_strip v) = true ∧
      (py_strip v ≠ last4_from_phone (rider.phoneNumber.getD "") →
        ∀ n, check_rider_matches m rider n
          (last4_from_phone (rider.phoneNumber.getD "")) = false)) ∧
    ((∀ v, dict_get m (norm_name (rider.name.getD "") ++ "|" ++
        last4_from_phone (rider.phoneNumber.getD "")) = some v →
      is_four_digits (py_strip v) = false) →
      get_login4_for_rider m rider =
        (last4_from_phone (rider.phoneNumber.getD ""),
         last4_from_phone (rider.phoneNumber.getD ""), "real")) ∧
    (last4_from_phone (rider.phoneNumber.getD "") = "" →
      (∀ v, dict_get m (norm_name (rider.name.getD "") ++ "|" ++
        last4_from_phone (rider.phoneNumber.getD "")) = some v →
        is_four_digits (py_strip v) = false) →
      ∀ n q, is_four_digits q = true → check_rider_matches m rider n q = false) := by
  refine ⟨?_, ?_, ?_, ?_⟩
  · cases hv : dict_get m (norm_name (rider.name.getD "") ++ "|" ++
        last4_from_phone (rider.phoneNumber.getD "")) with
    | none => rw [gl4_real_none hv]
    | some v =>
      cases h4 : is_four_digits (py_strip v) with
      | true => rw [gl4_override hv h4]
      | false => rw [gl4_real_bad hv h4]
  · intro v hv h4
    have he := gl4_override hv h4
    refine ⟨he, ?_, ?_⟩
    · unfold check_rider_matches
      rw [he]
      simp
    · intro hne n
      unfold check_rider_matches
      rw [he]
      simp only [Bool.and_eq_false_iff]
      right
      exact beq_eq_false_iff_ne.mpr hne
  · intro hbad
    cases hv : dict_get m (norm_name (rider.name.getD "") ++ "|" ++
        last4_from_phone (rider.phoneNumber.getD "")) with
    | none => exact gl4_real_none hv
    | some v => exact gl4_real_bad hv (hbad v hv)
  · intro hempty hbad n q hq
    have he := (by
      cases hv : dict_get m (norm_name (rider.name.getD "") ++ "|" ++
          last4_from_phone (rider.phoneNumber.getD "")) with
      | none => exact gl4_real_none hv
      | some v => exact gl4_real_bad hv (hbad v hv) :
      get_login4_for_rider m rider =
        (last4_from_phone (rider.phoneNumber.getD ""),
         last4_from_phone (rider.phoneNumber.getD ""), "real"))
    have hqne : q ≠ "" := by
      intro h
      subst h
      exact absurd (hq.symm.trans (by decide : is_four_digits "" = false)) (by decide)
    unfold check_rider_matches
    rw [he, hempty]
    simp only [Bool.and_eq_false_iff]
    right
    exact beq_eq_false_iff_ne.mpr (fun h => hqne h.symm)

/-- Witness for C2: an override 9999 over real suffix 5678 resolves to
(9999, 5678, override), the override value matches, the real one does not. -/
theorem login4_resolution_witness :
    get_login4_for_rider [("kim|5678", "9999")]
      ⟨some "Kim", some "010-1234-5678", none, none⟩ =
      ("9999", "5678", "override") ∧
    check_rider_matches [("kim|5678", "9999")]
      ⟨some "Kim", some "010-1234-5678", none, none⟩ "kim" "9999" = true ∧
    check_rider_matches [("kim|5678", "9999")]
      ⟨some "Kim", some "010-1234-5678", none, none⟩ "kim" "5678" = false := by
  have h := (login4_resolution [("kim|5678", "9999")]
    ⟨some "Kim", some "010-1234-5678", none, none⟩).2.1 "9999" (by decide) (by decide)
  exact ⟨h.1, h.2.1, h.2.2 (by decide) "kim"⟩

-- -----------------------------
-- Contract-status exclusion (C8)
-- -----------------------------

/-- Invariant of the roster cache: any cached roster holds no
contract-ended worker (it was written by the filtering fetch path). -/
def RidersCacheWF (c : RidersCache) : Prop :=
  ∀ l, c.data = some l → ∀ r ∈ l, is_ended_contract r = false

lemma fetch_riders_network_filtered {cache : RidersCache} {now : Int}
    {resp : HttpResponse RosterJson} {items : List Rider}
    (hok : (fetch_riders_network cache now resp).1 = .ok items) :
    ∀ r ∈ items, is_ended_contract r = false := by
  unfold fetch_riders_network at hok
  cases hpw : pw_get_json resp with
  | error e =>
    rw [hpw] at hok
    exact absurd hok (by simp)
  | ok j =>
    rw [hpw] at hok
    dsimp only at hok
    cases hok
    intro r hr
    have h := (List.mem_filter.mp hr).2
    simpa using h

lemma fetch_riders_network_wf {cache : RidersCache} {now : Int}
    {resp : HttpResponse RosterJson} (hwf : RidersCacheWF cache) :
    RidersCacheWF (fetch_riders_network cache now resp).2 := by
  unfold fetch_riders_network
  cases hpw : pw_get_json resp with
  | error e => exact hwf
  | ok j =>
    intro l hl r hr
    dsimp only at hl
    cases hl
    have h := (List.mem_filter.mp hr).2
    simpa using h

lemma fetch_riders_cached_filtered {cache : RidersCache} {now : Int}
    {resp : HttpResponse RosterJson} {items : List Rider}
    (hwf : RidersCacheWF cache)
    (hok : (fetch_riders_cached cache now resp).1 = .ok items) :
    ∀ r ∈ items, is_ended_contract r = false := by
  unfold fetch_riders_cached at hok
  cases hdata : cache.data with
  | none =>
    rw [hdata] at hok
    exact fetch_riders_network_filtered hok
  | some d =>
    rw [hdata] at hok
    dsimp only at hok
    by_cases htt : now - cache.ts ≤ RIDERS_CACHE_TTL
    · rw [if_pos htt] at hok
      dsimp only at hok
      cases hok
      exact hwf _ hdata
    · rw [if_neg htt] at hok
      exact fetch_riders_network_filtered hok

/-- Claim C8: every worker returned by the (cached) roster fetch fails the
ended-contract predicate, the filter holding across cache refreshes; hence
a contract-ended worker is in no `check` match set and in no dashboard
roster row built from the fetch result, even when a login-suffix override
matches it exactly (the match sets quantify over every override map). -/
theorem contract_ended_excluded (cache : RidersCache) (now : Int)
    (resp : HttpResponse RosterJson) (hwf : RidersCacheWF cache) :
    (∀ items, (fetch_riders_cached cache now resp).1 = .ok items →
      (∀ r ∈ items, is_ended_contract r = false) ∧
      (∀ r, is_ended_contract r = true →
        (∀ m name_in login4, r ∉ check_matches m items name_in login4) ∧
        (∀ q, r ∉ dashboard_rider_rows items q))) ∧
    RidersCacheWF (fetch_riders_cached cache now resp).2 := by
  constructor
  · intro items hok
    have hfil := fetch_riders_cached_filtered hwf hok
    refine ⟨hfil, ?_⟩
    intro r hended
    constructor
    · intro m name_in login4 hmem
      have hr := ((mem_check_matches m items name_in login4 r).mp hmem).1
      rw [hfil r hr] at hended
      exact absurd hended (by decide)
    · intro q hmem
      have hr := (List.mem_filter.mp hmem).1
      rw [hfil r hr] at hended
      exact absurd hended (by decide)
  · unfold fetch_riders_cached
    cases hdata : cache.data with
    | none => exact fetch_riders_network_wf hwf
    | some d =>
      dsimp only
      by_cases htt : now - cache.ts ≤ RIDERS_CACHE_TTL
      · rw [if_pos htt]
        exact hwf
      · rw [if_neg htt]
        exact fetch_riders_network_wf hwf

/-- Witness for C8: a contract-ended worker (code `CONTRACT_END`) with an
exactly matching login-suffix override is absent from the match set of the
lookup that would otherwise hit it. -/
theorem contract_ended_excluded_witness :
    (⟨some "kim", some "010-1111-2222", none, some ⟨some "CONTRACT_END", none⟩⟩ : Rider) ∉
      check_matches [("kim|2222", "2222")]
        [⟨some "kim", some "010-1234-5678", none, some ⟨some "UNDER_CONTRACT", none⟩⟩]
        "kim" "2222" :=
  (((contract_ended_excluded ⟨0, none⟩ 0
      ⟨200, some (.arr [⟨some "kim", some "010-1111-2222", none,
        some ⟨some "CONTRACT_END", none⟩⟩,
        ⟨some "kim", some "010-1234-5678", none,
          some ⟨some "UNDER_CONTRACT", none⟩⟩])⟩
      (fun _ h => nomatch h)).1
    [⟨some "kim", some "010-1234-5678", none, some ⟨some "UNDER_CONTRACT", none⟩⟩]
    rfl).2
    ⟨some "kim", some "010-1111-2222", none, some ⟨some "CONTRACT_END", none⟩⟩
    (by decide)).1 [("kim|2222", "2222")] "kim" "2222"

-- -----------------------------
-- Fetch failure semantics (C9)
-- -----------------------------

lemma fetch_riders_network_err {cache : RidersCache} {now : Int}
    {resp : HttpResponse RosterJson} {e : FetchErr}
    (he : (fetch_riders_network cache now resp).1 = .error e) :
    (fetch_riders_network cache now resp).2 = cache := by
  unfold fetch_riders_network at he ⊢
  revert he
  cases hpw : pw_get_json resp <;> intro he
  · rfl
  · exact Except.noConfusion he

lemma fetch_riders_network_propagates {cache : RidersCache} {now : Int}
    {resp : HttpResponse RosterJson} {e : FetchErr}
    (hpw : pw_get_json resp = .error e) :
    (fetch_riders_network cache now resp).1 = .error e := by
  unfold fetch_riders_network
  rw [hpw]

lemma fetch_status_network_err {cache : StatusCache} {now : Int}
    {key : Date × Date} {pages : Nat → HttpResponse StatusPage} {e : FetchErr}
    (he : (fetch_status_network cache now key pages).1 = .error e) :
    (fetch_status_network cache now key pages).2 = cache := by
  unfold fetch_status_network at he ⊢
  revert he
  cases h : fetch_status_pages pages 0 600 [] <;> intro he
  · rfl
  · exact Except.noConfusion he

/-- Claim C9: `pw_get_json` raises the distinct session-expired kind
exactly on 401/403, the generic kind on any other failing status or an
unparsable body, and succeeds otherwise; both cached fetchers return the
cache unchanged whenever they fail (the cache is written only after a fully
successful fetch), and a network failure on a cache miss propagates to the
caller instead of any stale entry being served. -/
theorem fetch_failure_semantics :
    (∀ (α : Type) (r : HttpResponse α),
      ((∃ s, pw_get_json r = .error (.permissionError s)) ↔
        r.status = 401 ∨ r.status = 403) ∧
      (¬ (r.status = 401 ∨ r.status = 403) → (400 ≤ r.status ∨ r.body = none) →
        ∃ s, pw_get_json r = .error (.runtimeError s)) ∧
      (∀ j, r.status < 400 → r.body = some j → pw_get_json r = .ok j)) ∧
    (∀ (cache : RidersCache) (now : Int) (resp : HttpResponse RosterJson)
        (e : FetchErr),
      (fetch_riders_cached cache now resp).1 = .error e →
      (fetch_riders_cached cache now resp).2 = cache) ∧
    (∀ (cache : StatusCache) (now : Int) (today from_d to_d : Date)
        (pages : Nat → HttpResponse StatusPage) (e : FetchErr),
      (fetch_status_complete_map_cached cache now today from_d to_d pages).1 =
        .error e →
      (fetch_status_complete_map_cached cache now today from_d to_d pages).2 =
        cache) ∧
    (∀ (cache : RidersCache) (now : Int) (resp : HttpResponse RosterJson)
        (e : FetchErr),
      cache.data = none → pw_get_json resp = .error e →
      (fetch_riders_cached cache now resp).1 = .error e) := by
  refine ⟨?_, ?_, ?_, ?_⟩
  · intro α r
    unfold pw_get_json
    by_cases h43 : r.status = 401 ∨ r.status = 403
    · rw [if_pos h43]
      refine ⟨⟨fun _ => h43, fun _ => ⟨"SESSION_EXPIRED_OR_FORBIDDEN", rfl⟩⟩, ?_, ?_⟩
      · intro hn
        exact absurd h43 hn
      · intro j hlt _
        exfalso
        omega
    · rw [if_neg h43]
      by_cases h4 : 400 ≤ r.status
      · rw [if_pos h4]
        refine ⟨⟨?_, fun h => absurd h h43⟩, ?_, ?_⟩
        · rintro ⟨s, hs⟩
          exact absurd (Except.error.inj hs) (by simp)
        · intro _ _
          exact ⟨"HTTP_STATUS", rfl⟩
        · intro j hlt _
          exfalso
          omega
      · rw [if_neg h4]
        cases hb : r.body with
        | none =>
          refine ⟨⟨?_, fun h => absurd h h43⟩, ?_, ?_⟩
          · rintro ⟨s, hs⟩
            exact absurd (Except.error.inj hs) (by simp)
          · intro _ _
            exact ⟨"JSON_PARSE", rfl⟩
          · intro j _ hj
            exact absurd hj (by simp)
        | some j =>
          refine ⟨⟨?_, fun h => absurd h h43⟩, ?_, ?_⟩
          · rintro ⟨s, hs⟩
            exact Except.noConfusion hs
          · intro _ hor
            rcases hor with h | h
            · exact absurd h h4
            · exact absurd h (by simp)
          · intro j' _ hj
            cases hj
            rfl
  · intro cache now resp e he
    unfold fetch_riders_cached at he ⊢
    cases hdata : cache.data with
    | none =>
      rw [hdata] at he
      exact fetch_riders_network_err he
    | some d =>
      rw [hdata] at he
      dsimp only at he ⊢
      by_cases htt : now - cache.ts ≤ RIDERS_CACHE_TTL
      · rw [if_pos htt] at he
        exact Except.noConfusion he
      · rw [if_neg htt] at he ⊢
        exact fetch_riders_network_err he
  · intro cache now today from_d to_d pages e he
    simp only [fetch_status_complete_map_cached] at he ⊢
    cases hget : status_cache_get cache (status_fetch_clip from_d to_d today) with
    | none =>
      rw [hget] at he
      exact fetch_status_network_err he
    | some entry =>
      rw [hget] at he
      dsimp only at he ⊢
      by_cases htt : now - entry.ts ≤ STATUS_CACHE_TTL
      · rw [if_pos htt] at he
        exact Except.noConfusion he
      · rw [if_neg htt] at he ⊢
        exact fetch_status_network_err he
  · intro cache now resp e hdata hpw
    unfold fetch_riders_cached
    rw [hdata]
    exact fetch_riders_network_propagates hpw

/-- Witness for C9: a 500 response past the TTL leaves the populated roster
cache entry exactly as it was. -/
theorem fetch_failure_semantics_witness :
    (fetch_riders_cached ⟨5, some [⟨some "kim", none, none, none⟩]⟩ 100
      ⟨500, none⟩).2 = ⟨5, some [⟨some "kim", none, none, none⟩]⟩ :=
  fetch_failure_semantics.2.1 ⟨5, some [⟨some "kim", none, none, none⟩]⟩ 100
    ⟨500, none⟩ (.runtimeError "HTTP_STATUS") rfl
